import Mathlib

/-!
Shallow embedding of `src/app.py` (price-optimization HTTP service).

Numbers are modelled as exact rationals `ℚ`.  Python / numpy behaviours that
matter to the claims are made explicit:

* a Python `dict` is an association list in insertion order; assigning to an
  existing key keeps its position, assigning to a fresh key appends;
* pure-Python float division raises `ZeroDivisionError` when the denominator
  is exactly `0.0` (modelled with `Except`);
* `np.arange(start, stop, step)` produces `start + i*step` for
  `i < ⌈(stop-start)/step⌉` (empty when the count is non-positive) and raises
  `ZeroDivisionError` when `step = 0`;
* `np.argmax` returns the first index of the maximal element and raises
  `ValueError` on an empty array;
* the fitted sklearn pipeline is opaque: it is a parameter of type
  `Payload → ℚ` mapping one feature row to a log-scale prediction, and a
  batch prediction is the row-wise map of that function; `np.expm1` is
  likewise an opaque parameter `ℚ → ℚ`.
-/

namespace PriceOpt

/-- The epsilon `1e-6` used to guard the competitor-price denominators. -/
def eps : ℚ := 1 / 1000000

/-- The tolerance `1e-9` added to `max_price` before grid generation. -/
def tol : ℚ := 1 / 1000000000

/-- A Python value stored in a request/feature dictionary. -/
inductive PyVal where
  | num (q : ℚ)
  | str (s : String)
  | null
deriving DecidableEq

/-- A Python dict in insertion order. -/
abbrev Payload := List (String × PyVal)

/-- Key membership test (`k in p`). -/
def hasKey (p : Payload) (k : String) : Bool := p.any (fun kv => kv.1 == k)

/-- Python `p[k]` / `p.get(k)` as an `Option` (first binding wins). -/
def dictGet (p : Payload) (k : String) : Option PyVal :=
  (p.find? (fun kv => kv.1 == k)).map Prod.snd

/-- Python `p.get(k, d)`. -/
def dictGetD (p : Payload) (k : String) (d : PyVal) : PyVal := (dictGet p k).getD d

/-- Python `p[k] = v`: update in place when the key exists, else append. -/
def dictSet (p : Payload) (k : String) (v : PyVal) : Payload :=
  if hasKey p k then p.map (fun kv => if kv.1 == k then (k, v) else kv)
  else p ++ [(k, v)]

/-- The failure conditions the service code can produce: the handled
`HTTPException` and the unhandled Python exceptions. -/
inductive PyError where
  | zeroDivision
  | valueError
  | keyError
  | typeError
  | http (code : Nat) (detail : String)
deriving DecidableEq

/-- Pure-Python float division: raises `ZeroDivisionError` on a zero
denominator. -/
def pyDiv (a b : ℚ) : Except PyError ℚ :=
  if b = 0 then .error .zeroDivision else .ok (a / b)

/-- Read `p[k]` expecting a number (`KeyError` when missing, `TypeError` when
the stored value is not numeric). -/
def getNum (p : Payload) (k : String) : Except PyError ℚ :=
  match dictGet p k with
  | some (.num q) => .ok q
  | some _ => .error .typeError
  | Option.none => .error .keyError

/-- The pydantic `PredictRequest` body. -/
structure PredictRequest where
  unit_price : ℚ
  comp_1 : ℚ
  comp_2 : ℚ
  comp_3 : ℚ
  freight_price : ℚ
  product_category_name : Option String := Option.none
deriving DecidableEq

/-- `req.dict()`: the request as a Python dict in field-declaration order. -/
def PredictRequest.dict (r : PredictRequest) : Payload :=
  [("unit_price", .num r.unit_price),
   ("comp_1", .num r.comp_1),
   ("comp_2", .num r.comp_2),
   ("comp_3", .num r.comp_3),
   ("freight_price", .num r.freight_price),
   ("product_category_name",
     match r.product_category_name with
     | some s => .str s
     | Option.none => .null)]

/-- The metadata descriptor, in the shape the service relies on: a metadata
JSON object that is absent, empty, or lacks `num_cols` is modelled as the
`Option.none` case at use sites (`METADATA and 'num_cols' in METADATA`).
`cat_cols` defaults to `[]` (`METADATA.get('cat_cols', [])`). -/
structure Metadata where
  num_cols : List String
  cat_cols : List String := []
deriving DecidableEq

/-- The three ratio assignments performed by `make_input_df` (and, per record,
by the training pipeline): `p['price_ratio_compI'] = rI`. -/
def withRatios (p : Payload) (r1 r2 r3 : ℚ) : Payload :=
  dictSet (dictSet (dictSet p "price_ratio_comp1" (.num r1))
    "price_ratio_comp2" (.num r2)) "price_ratio_comp3" (.num r3)

/-- The metadata-ordered row: `{k: p.get(k, 0) for k in num_cols}` followed by
`row[c] = p.get(c)` for each categorical column. -/
def orderedRow (md : Metadata) (p : Payload) : Payload :=
  let row := md.num_cols.foldl (fun row k => dictSet row k (dictGetD p k (.num 0))) []
  md.cat_cols.foldl (fun row c => dictSet row c (dictGetD p c .null)) row

/-- `make_input_df(payload)`: compute the three epsilon-guarded ratios, then
order the single row by the metadata columns when metadata is available,
otherwise keep the raw insertion order. -/
def makeInputDf (metadata : Option Metadata) (payload : Payload) :
    Except PyError Payload := do
  let up ← getNum payload "unit_price"
  let c1 ← getNum payload "comp_1"
  let c2 ← getNum payload "comp_2"
  let c3 ← getNum payload "comp_3"
  let r1 ← pyDiv up (c1 + eps)
  let r2 ← pyDiv up (c2 + eps)
  let r3 ← pyDiv up (c3 + eps)
  let p := withRatios payload r1 r2 r3
  match metadata with
  | some md => pure (orderedRow md p)
  | Option.none => pure p

/-- The opaque fitted pipeline: one feature row to one log-scale prediction. -/
abbrev Model := Payload → ℚ

/-- The `/predict` response body. -/
structure PredictionResult where
  predicted_qty : ℚ
  predicted_profit : ℚ
deriving DecidableEq

/-- The `/predict` handler.  `expm1` stands for `np.expm1`; `cogs` is the
`COGS` configuration constant; `model` is the lazily loaded artifact. -/
def predict (model : Option Model) (metadata : Option Metadata)
    (expm1 : ℚ → ℚ) (cogs : ℚ) (req : PredictRequest) :
    Except PyError PredictionResult :=
  match model with
  | Option.none => .error (.http 503 "Model not loaded")
  | some m => do
    let df ← makeInputDf metadata req.dict
    let log_pred := m df
    let qty := max 0 (expm1 log_pred)
    let margin := req.unit_price - cogs - req.freight_price
    let profit := max 0 (margin * qty)
    pure ⟨qty, profit⟩

/-- What `try_load_model` would find on disk in the current process
environment (the loader swallows I/O errors, so a corrupt or missing file is
simply the `Option.none` component). -/
structure LoadEnv where
  modelOnDisk : Option Model
  metadataOnDisk : Option Metadata

/-- `try_load_model()`: returns whatever is loadable, absent otherwise. -/
def try_load_model (env : LoadEnv) : Option Model × Option Metadata :=
  (env.modelOnDisk, env.metadataOnDisk)

/-- The module-level globals `MODEL` and `METADATA`. -/
structure AppState where
  MODEL : Option Model
  METADATA : Option Metadata

/-- The globals right after import: `MODEL = None`, `METADATA = None`. -/
def initState : AppState := ⟨Option.none, Option.none⟩

/-- `get_model_and_metadata()`: re-invokes `try_load_model` whenever
`MODEL is None or METADATA is None`.  Returns the result pair, the new
global state and whether the load sequence was invoked on this call. -/
def get_model_and_metadata (env : LoadEnv) (s : AppState) :
    (Option Model × Option Metadata) × AppState × Bool :=
  if s.MODEL.isNone || s.METADATA.isNone then
    let lm := try_load_model env
    (lm, ⟨lm.1, lm.2⟩, true)
  else ((s.MODEL, s.METADATA), s, false)

/-- `np.arange(start, stop, step)` for a nonzero step: `start + i*step` for
`i < ⌈(stop - start)/step⌉` (empty when that count is non-positive). -/
def arangeList (start stop step : ℚ) : List ℚ :=
  (List.range (⌈(stop - start) / step⌉.toNat)).map
    (fun i : ℕ => start + (i : ℚ) * step)

/-- The maximum of a list of rationals (`Option.none` on the empty list). -/
def listMax : List ℚ → Option ℚ
  | [] => Option.none
  | x :: xs =>
    match listMax xs with
    | Option.none => some x
    | some m => some (max x m)

/-- `np.argmax`: first index attaining the maximum; `ValueError` on an empty
array. -/
def argmax (l : List ℚ) : Except PyError ℕ :=
  match listMax l with
  | Option.none => .error .valueError
  | some m => .ok (l.indexOf m)

/-- Column access `r[k]` on a row known to hold a number at `k` (every use in
`optimize` reads keys that `req.dict()` guarantees present and numeric). -/
def numAt (p : Payload) (k : String) : ℚ :=
  match dictGet p k with
  | some (.num q) => q
  | _ => 0

/-- One grid-point row of `optimize`: copy the base request dict, overwrite
`unit_price` with the candidate price `p`, then assign the three ratios
computed from `p` and the row's competitor prices.  (numpy scalar division
does not raise on a zero denominator, so no `Except` here; theorems about
the ratio values assume the denominator is nonzero.) -/
def rowFor (base : Payload) (p : ℚ) : Payload :=
  let r := dictSet base "unit_price" (.num p)
  let r := dictSet r "price_ratio_comp1" (.num (p / (numAt r "comp_1" + eps)))
  let r := dictSet r "price_ratio_comp2" (.num (p / (numAt r "comp_2" + eps)))
  dictSet r "price_ratio_comp3" (.num (p / (numAt r "comp_3" + eps)))

/-- The list of candidate rows, in grid order. -/
def optRows (base : Payload) (prices : List ℚ) : List Payload :=
  prices.map (rowFor base)

/-- `np.clip(np.expm1(model.predict(df)), 0.0, None)`, row-wise. -/
def optQtys (m : Model) (expm1 : ℚ → ℚ) (rows : List Payload) : List ℚ :=
  (rows.map m).map (fun lp => max 0 (expm1 lp))

/-- `df['unit_price'] - COGS - df['freight_price']`, row-wise. -/
def optMargins (cogs : ℚ) (rows : List Payload) : List ℚ :=
  rows.map (fun r => numAt r "unit_price" - cogs - numAt r "freight_price")

/-- `np.where(margins > 0, margins * qtys, 0.0)`. -/
def optProfits (margins qtys : List ℚ) : List ℚ :=
  (margins.zip qtys).map (fun mq => if 0 < mq.1 then mq.1 * mq.2 else 0)

/-- The price grid of `optimize`: `np.arange(min_price, max_price + 1e-9, step)`. -/
def gridOf (min_price max_price step : ℚ) : List ℚ :=
  arangeList min_price (max_price + tol) step

/-- The candidate rows built by `optimize` for its grid. -/
def rowsOf (req : PredictRequest) (min_price max_price step : ℚ) : List Payload :=
  optRows req.dict (gridOf min_price max_price step)

/-- The clipped quantities of `optimize` for its grid. -/
def qtysOf (m : Model) (expm1 : ℚ → ℚ) (req : PredictRequest)
    (min_price max_price step : ℚ) : List ℚ :=
  optQtys m expm1 (rowsOf req min_price max_price step)

/-- The per-candidate profits of `optimize` for its grid. -/
def profitsOf (m : Model) (expm1 : ℚ → ℚ) (cogs : ℚ) (req : PredictRequest)
    (min_price max_price step : ℚ) : List ℚ :=
  optProfits (optMargins cogs (rowsOf req min_price max_price step))
    (qtysOf m expm1 req min_price max_price step)

/-- The `/optimize` response body. -/
structure OptimizationResult where
  best_price : ℚ
  best_profit : ℚ
  best_qty : ℚ
deriving DecidableEq

/-- The `/optimize` handler.  `np.arange` raises `ZeroDivisionError` when
`step = 0`; `np.argmax` raises `ValueError` when the profit array is empty. -/
def optimize (model : Option Model) (expm1 : ℚ → ℚ) (cogs : ℚ)
    (req : PredictRequest) (min_price max_price step : ℚ) :
    Except PyError OptimizationResult :=
  match model with
  | Option.none => .error (.http 503 "Model not loaded")
  | some m =>
    if step = 0 then .error .zeroDivision
    else
      match argmax (profitsOf m expm1 cogs req min_price max_price step) with
      | .error e => .error e
      | .ok i =>
        .ok ⟨(gridOf min_price max_price step).getD i 0,
             (profitsOf m expm1 cogs req min_price max_price step).getD i 0,
             (qtysOf m expm1 req min_price max_price step).getD i 0⟩

/-! Concrete artifacts shared by witnesses and counterexamples. -/

/-- A stub pipeline whose log-scale prediction is constantly `0`. -/
def stubModel : Model := fun _ => 0

/-- A stub pipeline whose log-scale prediction is constantly `1`. -/
def stub1 : Model := fun _ => 1

/-- A stub pipeline whose log-scale prediction is constantly `2`. -/
def stub2 : Model := fun _ => 2

/-- The spec's end-to-end scenario request. -/
def baseReq : PredictRequest := ⟨100, 90, 95, 105, 10, Option.none⟩

/-- The same request with a different `unit_price`. -/
def baseReqAlt : PredictRequest := ⟨77, 90, 95, 105, 10, Option.none⟩

/-- The scenario request with zero freight. -/
def flatReq : PredictRequest := ⟨100, 90, 95, 105, 0, Option.none⟩

/-- A request whose first competitor price is exactly `0`. -/
def zeroCompReq : PredictRequest := ⟨100, 0, 95, 105, 10, Option.none⟩

/-- A metadata descriptor declaring a numeric column with no input value and
one categorical column. -/
def metaW : Metadata :=
  ⟨["unit_price", "price_ratio_comp1", "extra_num"], ["product_category_name"]⟩

/-- The scenario request's dict with a stray undeclared field appended. -/
def payloadW : Payload := baseReq.dict ++ [("stray", .num 5)]

/-- An environment where the model artifact is missing but metadata loads. -/
def absentEnv : LoadEnv := ⟨Option.none, some ⟨[], []⟩⟩

/-- A global state in which both the model and the metadata have loaded. -/
def loadedState : AppState := ⟨some stubModel, some ⟨[], []⟩⟩

/-! Helper lemmas. -/

theorem bind_ok {α β : Type} (a : α) (f : α → Except PyError β) :
    (Except.ok a : Except PyError α) >>= f = f a := rfl

theorem bind_err {α β : Type} (e : PyError) (f : α → Except PyError β) :
    (Except.error e : Except PyError α) >>= f = Except.error e := rfl

theorem dictSet_of_not_hasKey {p : Payload} {k : String}
    (h : hasKey p k = false) (v : PyVal) : dictSet p k v = p ++ [(k, v)] := by
  simp [dictSet, h]

theorem hasKey_append {p q : Payload} {k : String} :
    hasKey (p ++ q) k = (hasKey p k || hasKey q k) := by
  simp [hasKey, List.any_append]

theorem foldl_dictSet_eq_append (ks : List String) (f : String → PyVal) :
    ∀ acc : Payload, ks.Nodup → (∀ k ∈ ks, hasKey acc k = false) →
      ks.foldl (fun row k => dictSet row k (f k)) acc
        = acc ++ ks.map (fun k => (k, f k)) := by
  induction ks with
  | nil => intro acc _ _; simp
  | cons k ks ih =>
    intro acc hnd hfresh
    have hfresh' : ∀ k' ∈ ks, hasKey (acc ++ [(k, f k)]) k' = false := by
      intro k' hk'
      rw [hasKey_append, hfresh k' (List.mem_cons_of_mem k hk'), Bool.false_or]
      have hne : k ≠ k' := fun hEq => (List.nodup_cons.mp hnd).1 (hEq ▸ hk')
      simp [hasKey, hne]
    rw [List.foldl_cons,
      dictSet_of_not_hasKey (hfresh k (List.mem_cons_self k ks)) (f k),
      ih (acc ++ [(k, f k)]) (List.nodup_cons.mp hnd).2 hfresh']
    simp

theorem orderedRow_eq (md : Metadata) (p : Payload) (hnum : md.num_cols.Nodup)
    (hcat : md.cat_cols.Nodup) (hdisj : ∀ c ∈ md.cat_cols, c ∉ md.num_cols) :
    orderedRow md p
      = md.num_cols.map (fun k => (k, dictGetD p k (.num 0)))
        ++ md.cat_cols.map (fun c => (c, dictGetD p c .null)) := by
  unfold orderedRow
  rw [foldl_dictSet_eq_append md.num_cols _ [] hnum (fun k _ => rfl),
    List.nil_append,
    foldl_dictSet_eq_append md.cat_cols _ _ hcat ?_]
  intro c hc
  have hnotin : c ∉ md.num_cols := hdisj c hc
  simp only [hasKey, List.any_eq_false]
  intro kv hkv
  obtain ⟨k, hk, rfl⟩ := List.mem_map.mp hkv
  intro hbeq
  exact hnotin (eq_of_beq hbeq ▸ hk)

theorem listMax_eq_none {l : List ℚ} : listMax l = Option.none ↔ l = [] := by
  cases l with
  | nil => simp [listMax]
  | cons x xs =>
    cases hxs : listMax xs <;> simp [listMax, hxs]

theorem listMax_spec : ∀ {l : List ℚ} {M : ℚ}, listMax l = some M →
    M ∈ l ∧ ∀ a ∈ l, a ≤ M := by
  intro l
  induction l with
  | nil => intro M h; cases h
  | cons x xs ih =>
    intro M h
    cases hxs : listMax xs with
    | none =>
      rw [listMax, hxs] at h
      obtain rfl : x = M := Option.some.inj h
      obtain rfl : xs = [] := listMax_eq_none.mp hxs
      exact ⟨List.mem_singleton_self x, by simp⟩
    | some m =>
      rw [listMax, hxs] at h
      obtain rfl : max x m = M := Option.some.inj h
      obtain ⟨hmem, hub⟩ := ih hxs
      constructor
      · rcases max_choice x m with hx | hm
        · rw [hx]; exact List.mem_cons_self x xs
        · rw [hm]; exact List.mem_cons_of_mem x hmem
      · intro a ha
        rcases List.mem_cons.mp ha with rfl | ha'
        · exact le_max_left _ _
        · exact le_trans (hub a ha') (le_max_right _ _)

theorem getElem_ne_of_lt_indexOf {l : List ℚ} {a : ℚ} {j : ℕ}
    (hj : j < l.length) (hlt : j < l.indexOf a) : l[j] ≠ a := by
  induction l generalizing j with
  | nil => simp at hj
  | cons x xs ih =>
    cases j with
    | zero =>
      intro hEq
      simp only [List.getElem_cons_zero] at hEq
      rw [hEq, List.indexOf_cons_self] at hlt
      omega
    | succ j =>
      have hx : x ≠ a := by
        intro hEq
        rw [List.indexOf_cons_eq _ hEq] at hlt
        omega
      rw [List.indexOf_cons_ne _ hx] at hlt
      simp only [List.getElem_cons_succ]
      exact ih (by simpa using hj) (Nat.lt_of_succ_lt_succ hlt)

theorem argmax_spec {l : List ℚ} {i : ℕ} (h : argmax l = .ok i) :
    i < l.length ∧ (∀ j < l.length, l.getD j 0 ≤ l.getD i 0) ∧
    (∀ j < i, l.getD j 0 < l.getD i 0) := by
  cases hm : listMax l with
  | none => rw [argmax, hm] at h; cases h
  | some M =>
    rw [argmax, hm] at h
    obtain rfl : l.indexOf M = i := Except.ok.inj h
    obtain ⟨hmem, hub⟩ := listMax_spec hm
    have hilen : l.indexOf M < l.length := List.indexOf_lt_length.mpr hmem
    have hiM : l[l.indexOf M] = M := List.getElem_indexOf hilen
    refine ⟨hilen, ?_, ?_⟩
    · intro j hj
      rw [List.getD_eq_getElem _ _ hj, List.getD_eq_getElem _ _ hilen, hiM]
      exact hub _ (List.getElem_mem hj)
    · intro j hji
      have hj : j < l.length := lt_trans hji hilen
      rw [List.getD_eq_getElem _ _ hj, List.getD_eq_getElem _ _ hilen, hiM]
      exact lt_of_le_of_ne (hub _ (List.getElem_mem hj))
        (getElem_ne_of_lt_indexOf hj hji)

theorem profitsOf_length (m : Model) (expm1 : ℚ → ℚ) (cogs : ℚ)
    (req : PredictRequest) (min_price max_price step : ℚ) :
    (profitsOf m expm1 cogs req min_price max_price step).length
      = (gridOf min_price max_price step).length := by
  simp [profitsOf, optProfits, optMargins, qtysOf, optQtys, rowsOf, optRows]

/-! Claim theorems. -/

/-- Claim C1 (code-bug evidence): the claim says a degenerate range
(`min_price > max_price` or `step ≤ 0`) makes grid generation fail gracefully
with an explicit "invalid range" condition.  The code has no such branch:
with `min_price = 2 > 1 = max_price` the grid is empty and `np.argmax` raises
an unhandled `ValueError`, and with `step = 0` `np.arange` raises an
unhandled `ZeroDivisionError`. -/
theorem C1_degenerate_range_unhandled_fault :
    optimize (some stubModel) id 50 baseReq 2 1 1 = .error .valueError ∧
    optimize (some stubModel) id 50 baseReq 1 10 0 = .error .zeroDivision :=
  ⟨by with_unfolding_all rfl, rfl⟩

/-- Claim C2 (counterexample): after a first call that determined the model
absent (here: the artifact file is missing while metadata loads), the next
call to `get_model_and_metadata` re-invokes the load sequence, so an
absence result is not cached for the remainder of the process lifetime. -/
theorem C2_reload_when_absent_counterexample :
    (get_model_and_metadata absentEnv
      (get_model_and_metadata absentEnv initState).2.1).2.2 = true := rfl

/-- Claim C2 (amended): once `get_model_and_metadata` has loaded both the
model and the metadata (both non-`None`), that result is cached process-wide:
a later call returns the cached pair unchanged and does not re-invoke the
load sequence, whatever is now on disk (no reload-on-change).  If either
value was determined absent, the guard `MODEL is None or METADATA is None`
makes every later call re-invoke the load sequence. -/
theorem C2_cached_once_both_loaded (env : LoadEnv) (s : AppState)
    (hm : s.MODEL.isSome = true) (hd : s.METADATA.isSome = true) :
    get_model_and_metadata env s = ((s.MODEL, s.METADATA), s, false) := by
  obtain ⟨M, D⟩ := s
  obtain ⟨m, rfl⟩ := Option.isSome_iff_exists.mp hm
  obtain ⟨d, rfl⟩ := Option.isSome_iff_exists.mp hd
  rfl

/-- Claim C2 amended-theorem witness: a loaded state is returned unchanged
even when the on-disk artifacts have changed (here: disappeared). -/
theorem C2_cached_once_both_loaded_witness :
    get_model_and_metadata ⟨Option.none, Option.none⟩ loadedState
      = ((loadedState.MODEL, loadedState.METADATA), loadedState, false) :=
  C2_cached_once_both_loaded ⟨Option.none, Option.none⟩ loadedState rfl rfl

/-- Claim C3 (counterexample): the claim quantifies over every request with
finite numeric fields, but at `comp_1 = -1e-6` the guarded denominator
`comp_1 + 1e-6` is exactly zero and the feature builder's pure-Python
division raises `ZeroDivisionError`. -/
theorem C3_denominator_zero_counterexample :
    makeInputDf Option.none
        (PredictRequest.dict ⟨100, -eps, 95, 105, 10, Option.none⟩)
      = .error .zeroDivision := by
  with_unfolding_all rfl

/-- Claim C3 (amended): for every request whose competitor prices differ from
`-1e-6` (in particular all non-negative ones), each denominator
`comp_i + 1e-6` is nonzero, the feature builder never raises, and for
`comp_i = 0` the computed ratio equals `unit_price / 1e-6`. -/
theorem C3_epsilon_guarded (md : Option Metadata) (req : PredictRequest)
    (h1 : req.comp_1 ≠ -eps) (h2 : req.comp_2 ≠ -eps) (h3 : req.comp_3 ≠ -eps) :
    (req.comp_1 + eps ≠ 0 ∧ req.comp_2 + eps ≠ 0 ∧ req.comp_3 + eps ≠ 0) ∧
    (makeInputDf md req.dict).isOk = true ∧
    (req.comp_1 = 0 →
      makeInputDf Option.none req.dict =
        .ok (withRatios req.dict (req.unit_price / eps)
          (req.unit_price / (req.comp_2 + eps))
          (req.unit_price / (req.comp_3 + eps)))) := by
  have hd1 : req.comp_1 + eps ≠ 0 := fun h => h1 (by linarith)
  have hd2 : req.comp_2 + eps ≠ 0 := fun h => h2 (by linarith)
  have hd3 : req.comp_3 + eps ≠ 0 := fun h => h3 (by linarith)
  have hok : ∀ md' : Option Metadata, makeInputDf md' req.dict =
      (match md' with
       | some m => .ok (orderedRow m (withRatios req.dict
           (req.unit_price / (req.comp_1 + eps))
           (req.unit_price / (req.comp_2 + eps))
           (req.unit_price / (req.comp_3 + eps))))
       | Option.none => .ok (withRatios req.dict
           (req.unit_price / (req.comp_1 + eps))
           (req.unit_price / (req.comp_2 + eps))
           (req.unit_price / (req.comp_3 + eps)))) := by
    intro md'
    show (pyDiv req.unit_price (req.comp_1 + eps)) >>= _ = _
    rw [pyDiv, if_neg hd1, bind_ok]
    show (pyDiv req.unit_price (req.comp_2 + eps)) >>= _ = _
    rw [pyDiv, if_neg hd2, bind_ok]
    show (pyDiv req.unit_price (req.comp_3 + eps)) >>= _ = _
    rw [pyDiv, if_neg hd3, bind_ok]
    cases md' <;> rfl
  refine ⟨⟨hd1, hd2, hd3⟩, ?_, ?_⟩
  · rw [hok md]
    cases md <;> rfl
  · intro hz
    rw [hok Option.none, hz, zero_add]

/-- Claim C3 amended-theorem witness: at `comp_1 = 0` the builder succeeds
and the first ratio is `unit_price / 1e-6`. -/
theorem C3_epsilon_guarded_witness :
    (zeroCompReq.comp_1 + eps ≠ 0 ∧ zeroCompReq.comp_2 + eps ≠ 0 ∧
      zeroCompReq.comp_3 + eps ≠ 0) ∧
    (makeInputDf Option.none zeroCompReq.dict).isOk = true ∧
    (zeroCompReq.comp_1 = 0 →
      makeInputDf Option.none zeroCompReq.dict =
        .ok (withRatios zeroCompReq.dict (zeroCompReq.unit_price / eps)
          (zeroCompReq.unit_price / (zeroCompReq.comp_2 + eps))
          (zeroCompReq.unit_price / (zeroCompReq.comp_3 + eps)))) :=
  C3_epsilon_guarded Option.none zeroCompReq
    (by with_unfolding_all decide) (by with_unfolding_all decide)
    (by with_unfolding_all decide)

/-- Claim C4: for every successful `predict` response, whatever the model
output's sign, `predicted_qty ≥ 0` and `predicted_profit ≥ 0` (via
`qty = max(0, expm1(log_pred))` and `profit = max(0, margin*qty)`), and the
same non-negativity holds element-wise for the optimizer's clipped
quantities and floored profits. -/
theorem C4_nonneg_qty_profit (m : Model) (md : Option Metadata)
    (expm1 : ℚ → ℚ) (cogs : ℚ) (req : PredictRequest) (res : PredictionResult)
    (h : predict (some m) md expm1 cogs req = .ok res) (rows : List Payload) :
    (0 ≤ res.predicted_qty ∧ 0 ≤ res.predicted_profit) ∧
    (∀ q ∈ optQtys m expm1 rows, 0 ≤ q) ∧
    (∀ pr ∈ optProfits (optMargins cogs rows) (optQtys m expm1 rows), 0 ≤ pr) := by
  have hq : ∀ q ∈ optQtys m expm1 rows, 0 ≤ q := by
    intro q hqmem
    obtain ⟨lp, _, rfl⟩ := List.mem_map.mp hqmem
    exact le_max_left 0 _
  refine ⟨?_, hq, ?_⟩
  · revert h
    show makeInputDf md req.dict >>= _ = _ → _
    cases hdf : makeInputDf md req.dict with
    | error e => rw [bind_err]; intro h; cases h
    | ok df =>
      rw [bind_ok]
      intro h
      obtain rfl : (⟨max 0 (expm1 (m df)),
          max 0 ((req.unit_price - cogs - req.freight_price)
            * max 0 (expm1 (m df)))⟩ : PredictionResult) = res :=
        Except.ok.inj h
      exact ⟨le_max_left 0 _, le_max_left 0 _⟩
  · intro pr hpr
    obtain ⟨⟨mg, q⟩, hmem, rfl⟩ := List.mem_map.mp hpr
    by_cases hmg : 0 < mg
    · rw [if_pos hmg]
      exact mul_nonneg hmg.le (hq q (List.of_mem_zip hmem).2)
    · rw [if_neg hmg]

/-- Claim C4 witness: the spec's end-to-end scenario with a stub model whose
log-prediction is 2 and `expm1` taken as the identity. -/
theorem C4_nonneg_qty_profit_witness :
    (0 ≤ (2 : ℚ) ∧ 0 ≤ (80 : ℚ)) ∧
    (∀ q ∈ optQtys stub2 id [], 0 ≤ q) ∧
    (∀ pr ∈ optProfits (optMargins 50 []) (optQtys stub2 id []), 0 ≤ pr) :=
  C4_nonneg_qty_profit stub2 Option.none id 50 baseReq ⟨2, 80⟩
    (by with_unfolding_all rfl) []

/-- Claim C5: for every grid point, the candidate row substitutes the
candidate price as `unit_price` and recomputes each ratio as
`candidate_price / (comp_i + 1e-6)` — never from the original request's
`unit_price`.  (The hypotheses `comp_i ≠ -1e-6` keep the rational model of
the numpy scalar division faithful: at a zero denominator numpy yields an
infinity rather than this quotient.) -/
theorem C5_candidate_price_in_rows (req : PredictRequest) (prices : List ℚ)
    (_h1 : req.comp_1 ≠ -eps) (_h2 : req.comp_2 ≠ -eps) (_h3 : req.comp_3 ≠ -eps)
    (i : ℕ) (hi : i < prices.length) :
    dictGet ((optRows req.dict prices).getD i []) "unit_price"
      = some (.num (prices.getD i 0)) ∧
    dictGet ((optRows req.dict prices).getD i []) "price_ratio_comp1"
      = some (.num (prices.getD i 0 / (req.comp_1 + eps))) ∧
    dictGet ((optRows req.dict prices).getD i []) "price_ratio_comp2"
      = some (.num (prices.getD i 0 / (req.comp_2 + eps))) ∧
    dictGet ((optRows req.dict prices).getD i []) "price_ratio_comp3"
      = some (.num (prices.getD i 0 / (req.comp_3 + eps))) := by
  have hlen : i < (optRows req.dict prices).length := by
    simpa [optRows] using hi
  rw [List.getD_eq_getElem _ _ hlen, List.getD_eq_getElem _ _ hi]
  simp only [optRows, List.getElem_map]
  exact ⟨rfl, rfl, rfl, rfl⟩

/-- Claim C5 witness: a one-point grid at candidate price 7 on the scenario
request. -/
theorem C5_candidate_price_in_rows_witness :
    dictGet ((optRows baseReq.dict [7]).getD 0 []) "unit_price"
      = some (.num (([7] : List ℚ).getD 0 0)) ∧
    dictGet ((optRows baseReq.dict [7]).getD 0 []) "price_ratio_comp1"
      = some (.num (([7] : List ℚ).getD 0 0 / (baseReq.comp_1 + eps))) ∧
    dictGet ((optRows baseReq.dict [7]).getD 0 []) "price_ratio_comp2"
      = some (.num (([7] : List ℚ).getD 0 0 / (baseReq.comp_2 + eps))) ∧
    dictGet ((optRows baseReq.dict [7]).getD 0 []) "price_ratio_comp3"
      = some (.num (([7] : List ℚ).getD 0 0 / (baseReq.comp_3 + eps))) :=
  C5_candidate_price_in_rows baseReq [7]
    (by with_unfolding_all decide) (by with_unfolding_all decide)
    (by with_unfolding_all decide) 0 (by decide)

/-- Claim C6: for a positive step the price grid is strictly ascending, and
whenever `max_price - min_price` is an exact (natural) multiple of `step`
the grid contains `max_price`; in particular `min_price = 1`,
`max_price = 10`, `step = 1` yields exactly the 10 points `1, …, 10`. -/
theorem C6_grid_ascending_boundary (min_price max_price step : ℚ)
    (hstep : 0 < step) :
    (gridOf min_price max_price step).Pairwise (· < ·) ∧
    (∀ k : ℕ, max_price - min_price = (k : ℚ) * step →
      max_price ∈ gridOf min_price max_price step) ∧
    gridOf 1 10 1 = [1, 2, 3, 4, 5, 6, 7, 8, 9, 10] := by
  refine ⟨?_, ?_, by with_unfolding_all rfl⟩
  · unfold gridOf arangeList
    rw [List.pairwise_map]
    refine (List.pairwise_lt_range _).imp ?_
    intro i j hij
    have hc : (i : ℚ) < j := by exact_mod_cast hij
    have hm := mul_lt_mul_of_pos_right hc hstep
    linarith
  · intro k hk
    unfold gridOf arangeList
    refine List.mem_map.mpr ⟨k, List.mem_range.mpr ?_, ?_⟩
    · have hne : step ≠ 0 := ne_of_gt hstep
      have hq : (max_price + tol - min_price) / step = (k : ℚ) + tol / step := by
        rw [show max_price + tol - min_price = (k : ℚ) * step + tol by linarith,
          add_div, mul_div_cancel_right₀ _ hne]
      rw [hq]
      refine Int.lt_toNat.mpr (Int.lt_ceil.mpr ?_)
      push_cast
      have hpos : 0 < tol / step := div_pos (by norm_num [tol]) hstep
      linarith
    · linarith

/-- Claim C6 witness: the boundary-inclusion example grid `1, …, 10`. -/
theorem C6_grid_ascending_boundary_witness :
    (gridOf 1 10 1).Pairwise (· < ·) ∧
    (∀ k : ℕ, (10 : ℚ) - 1 = (k : ℚ) * 1 → (10 : ℚ) ∈ gridOf 1 10 1) ∧
    gridOf 1 10 1 = [1, 2, 3, 4, 5, 6, 7, 8, 9, 10] :=
  C6_grid_ascending_boundary 1 10 1 (by norm_num)

/-- Claim C8: whenever the model artifact is absent, `predict` and
`optimize` both return the explicit 503 service-unavailable failure — for
every request (hence before any feature is built, even for requests whose
feature building would itself fault) and never an unhandled fault or a
fallback prediction. -/
theorem C8_model_absent_503 (metadata : Option Metadata) (expm1 : ℚ → ℚ)
    (cogs : ℚ) (req : PredictRequest) (min_price max_price step : ℚ) :
    predict Option.none metadata expm1 cogs req
      = .error (.http 503 "Model not loaded") ∧
    optimize Option.none expm1 cogs req min_price max_price step
      = .error (.http 503 "Model not loaded") :=
  ⟨rfl, rfl⟩

/-- Claim C7: a successful `optimize` result is the first (lowest-price)
grid point attaining the maximal profit: the chosen index bears a profit no
smaller than every profit and strictly larger than every earlier profit, and
`best_price` is that grid point itself, never an interpolated value. -/
theorem C7_first_max_lowest_price (m : Model) (expm1 : ℚ → ℚ) (cogs : ℚ)
    (req : PredictRequest) (minp maxp step : ℚ) (res : OptimizationResult)
    (h : optimize (some m) expm1 cogs req minp maxp step = .ok res) :
    res.best_price ∈ gridOf minp maxp step ∧
    ∃ i < (gridOf minp maxp step).length,
      res.best_price = (gridOf minp maxp step).getD i 0 ∧
      res.best_profit = (profitsOf m expm1 cogs req minp maxp step).getD i 0 ∧
      (∀ j < (profitsOf m expm1 cogs req minp maxp step).length,
        (profitsOf m expm1 cogs req minp maxp step).getD j 0
          ≤ (profitsOf m expm1 cogs req minp maxp step).getD i 0) ∧
      (∀ j < i, (profitsOf m expm1 cogs req minp maxp step).getD j 0
          < (profitsOf m expm1 cogs req minp maxp step).getD i 0) := by
  simp only [optimize] at h
  by_cases hs : step = 0
  · rw [if_pos hs] at h; cases h
  · rw [if_neg hs] at h
    cases ha : argmax (profitsOf m expm1 cogs req minp maxp step) with
    | error e => rw [ha] at h; cases h
    | ok i =>
      rw [ha] at h
      obtain rfl : (⟨(gridOf minp maxp step).getD i 0,
          (profitsOf m expm1 cogs req minp maxp step).getD i 0,
          (qtysOf m expm1 req minp maxp step).getD i 0⟩ : OptimizationResult)
          = res := Except.ok.inj h
      obtain ⟨hilen, hub, hfirst⟩ := argmax_spec ha
      rw [profitsOf_length] at hilen
      refine ⟨?_, i, hilen, rfl, rfl, hub, hfirst⟩
      rw [List.getD_eq_getElem _ _ hilen]
      exact List.getElem_mem hilen

/-- Claim C7 witness: on the grid `[1, 2, 3]` with a flat stub model the
profits are `[1, 2, 3]` and the maximum sits at the grid point 3. -/
theorem C7_first_max_lowest_price_witness :
    (3 : ℚ) ∈ gridOf 1 3 1 ∧
    ∃ i < (gridOf 1 3 1).length,
      (3 : ℚ) = (gridOf 1 3 1).getD i 0 ∧
      (3 : ℚ) = (profitsOf stub1 id 0 flatReq 1 3 1).getD i 0 ∧
      (∀ j < (profitsOf stub1 id 0 flatReq 1 3 1).length,
        (profitsOf stub1 id 0 flatReq 1 3 1).getD j 0
          ≤ (profitsOf stub1 id 0 flatReq 1 3 1).getD i 0) ∧
      (∀ j < i, (profitsOf stub1 id 0 flatReq 1 3 1).getD j 0
          < (profitsOf stub1 id 0 flatReq 1 3 1).getD i 0) :=
  C7_first_max_lowest_price stub1 id 0 flatReq 1 3 1 ⟨3, 3, 1⟩
    (by with_unfolding_all rfl)

/-- Claim C9: when metadata declares `num_cols`, the feature row is exactly
the declared numeric columns (value `p.get(k, 0)`, so absent numeric inputs
default to 0) followed by the declared categorical columns (value
`p.get(c)`, so absent categorical inputs default to null), in declared
order; any field not declared in the metadata is dropped. -/
theorem C9_metadata_column_order (md : Metadata) (payload : Payload)
    (up c1 c2 c3 : ℚ)
    (hup : dictGet payload "unit_price" = some (.num up))
    (hc1 : dictGet payload "comp_1" = some (.num c1))
    (hc2 : dictGet payload "comp_2" = some (.num c2))
    (hc3 : dictGet payload "comp_3" = some (.num c3))
    (hd1 : c1 + eps ≠ 0) (hd2 : c2 + eps ≠ 0) (hd3 : c3 + eps ≠ 0)
    (hnum : md.num_cols.Nodup) (hcat : md.cat_cols.Nodup)
    (hdisj : ∀ c ∈ md.cat_cols, c ∉ md.num_cols) :
    makeInputDf (some md) payload
      = .ok (md.num_cols.map (fun k =>
            (k, dictGetD (withRatios payload (up / (c1 + eps)) (up / (c2 + eps))
              (up / (c3 + eps))) k (.num 0)))
          ++ md.cat_cols.map (fun c =>
            (c, dictGetD (withRatios payload (up / (c1 + eps)) (up / (c2 + eps))
              (up / (c3 + eps))) c .null))) := by
  simp only [makeInputDf, getNum, hup, hc1, hc2, hc3, bind_ok]
  show (pyDiv up (c1 + eps)) >>= _ = _
  rw [pyDiv, if_neg hd1, bind_ok]
  show (pyDiv up (c2 + eps)) >>= _ = _
  rw [pyDiv, if_neg hd2, bind_ok]
  show (pyDiv up (c3 + eps)) >>= _ = _
  rw [pyDiv, if_neg hd3, bind_ok]
  show (pure (orderedRow md (withRatios payload (up / (c1 + eps))
      (up / (c2 + eps)) (up / (c3 + eps)))) : Except PyError Payload) = _
  rw [orderedRow_eq md _ hnum hcat hdisj]
  rfl

/-- Claim C9 witness: a payload with a stray extra field against metadata
declaring an absent numeric column and one categorical column. -/
theorem C9_metadata_column_order_witness :
    makeInputDf (some metaW) payloadW
      = .ok (metaW.num_cols.map (fun k =>
            (k, dictGetD (withRatios payloadW (100 / (90 + eps)) (100 / (95 + eps))
              (100 / (105 + eps))) k (.num 0)))
          ++ metaW.cat_cols.map (fun c =>
            (c, dictGetD (withRatios payloadW (100 / (90 + eps)) (100 / (95 + eps))
              (100 / (105 + eps))) c .null))) :=
  C9_metadata_column_order metaW payloadW 100 90 95 105 rfl rfl rfl rfl
    (by with_unfolding_all decide) (by with_unfolding_all decide)
    (by with_unfolding_all decide) (by decide) (by decide) (by decide)

/-- Claim C10: two `optimize` calls whose request bodies differ only in
`unit_price` return identical results: each candidate row overwrites
`unit_price` with the grid price before any feature or margin computation,
so the original `unit_price` cannot influence the outcome. -/
theorem C10_unit_price_overwritten (m : Model) (expm1 : ℚ → ℚ) (cogs : ℚ)
    (req1 req2 : PredictRequest)
    (hc1 : req1.comp_1 = req2.comp_1) (hc2 : req1.comp_2 = req2.comp_2)
    (hc3 : req1.comp_3 = req2.comp_3)
    (hf : req1.freight_price = req2.freight_price)
    (hcat : req1.product_category_name = req2.product_category_name)
    (min_price max_price step : ℚ) :
    optimize (some m) expm1 cogs req1 min_price max_price step
      = optimize (some m) expm1 cogs req2 min_price max_price step := by
  obtain ⟨u1, a1, b1, c1, d1, e1⟩ := req1
  obtain ⟨u2, a2, b2, c2, d2, e2⟩ := req2
  dsimp only at hc1 hc2 hc3 hf hcat
  subst hc1 hc2 hc3 hf hcat
  have hrow : rowFor (PredictRequest.dict ⟨u1, a1, b1, c1, d1, e1⟩)
      = rowFor (PredictRequest.dict ⟨u2, a1, b1, c1, d1, e1⟩) := by
    funext p
    rfl
  simp only [optimize, profitsOf, qtysOf, rowsOf, optRows, optMargins, hrow]

/-- Claim C10 witness: concrete requests differing only in `unit_price`
produce the same optimization result. -/
theorem C10_unit_price_overwritten_witness :
    optimize (some stubModel) id 50 baseReq 1 3 1
      = optimize (some stubModel) id 50 baseReqAlt 1 3 1 :=
  C10_unit_price_overwritten stubModel id 50 baseReq baseReqAlt
    rfl rfl rfl rfl rfl 1 3 1

end PriceOpt
